import Mathlib

/-!
Verification of the per-tenant playback scheduler of SoundRift (`src/bot.py`).

The Python `MusicPlayer` class and its helper functions are shallowly
embedded as pure Lean functions over an explicit `PlayerState`.  Monotonic
time stamps are rational numbers, the pending queue and the history are
lists (the history list keeps its oldest entry first, matching a
`collections.deque` whose right end is the most recent), and every point at
which the Python code consults the outside world (the yt-dlp resolver, the
Discord edit API, the voice channel membership) is a parameter of the
corresponding Lean function.
-/

namespace SoundRift

/-- Embeds the `Track` dataclass of `bot.py` (fields `query`, `requested_by`,
`title`, `artist`, `webpage_url`, `duration`, `thumbnail`). -/
structure Track where
  query : String
  requestedBy : String
  title : Option String := none
  artist : Option String := none
  webpageUrl : Option String := none
  duration : Option Nat := none
  thumbnail : Option String := none
deriving DecidableEq, Repr

/-- The dictionary returned by `ytdlp_resolve`: the keys that `_player_loop`
and `_pick_artist_from_info` read.  `url` is the stream URL (`info["url"]`);
a missing key raises in the Python code. -/
structure YtInfo where
  title : Option String := none
  url : Option String := none
  webpageUrl : Option String := none
  duration : Option Nat := none
  thumbnail : Option String := none
  artist : Option String := none
  creator : Option String := none
  uploader : Option String := none
  channel : Option String := none
deriving DecidableEq, Repr

/-- Truthiness of an optional string in Python: `None` and `""` are falsy. -/
def optTruthy : Option String → Bool
  | some s => s ≠ ""
  | none => false

/-- Python's `a or b` on optional strings. -/
def pyOr (a b : Option String) : Option String :=
  if optTruthy a then a else b

/-- Embeds `_pick_artist_from_info`: first of `artist`, `creator`,
`uploader`, `channel` that is a non-blank string, stripped. -/
def pickKey (v : Option String) : Option String :=
  match v with
  | some s => if s.trim ≠ "" then some s.trim else none
  | none => none

def pickArtistFromInfo (info : YtInfo) : Option String :=
  (pickKey info.artist).orElse fun _ =>
    (pickKey info.creator).orElse fun _ =>
      (pickKey info.uploader).orElse fun _ => pickKey info.channel

/-- Embeds the field enrichment of the current track in `_player_loop`
(lines 883–887 of `bot.py`):
`title = title or (info.get("title") or "Unknown title")`,
`webpage_url = info.get("webpage_url") or webpage_url or query`,
`duration = info.get("duration") if duration is None else duration`,
`artist = artist or _pick_artist_from_info(info)`,
`thumbnail = thumbnail or info.get("thumbnail")`. -/
def enrichTrack (t : Track) (info : YtInfo) : Track :=
  { t with
    title := pyOr t.title (pyOr info.title (some "Unknown title"))
    webpageUrl := pyOr info.webpageUrl (pyOr t.webpageUrl (some t.query))
    duration := match t.duration with
      | none => info.duration
      | some d => some d
    artist := pyOr t.artist (pickArtistFromInfo info)
    thumbnail := pyOr t.thumbnail info.thumbnail }

/-- State of the `discord.VoiceClient` as the player observes it:
`disconnected` covers `voice is None` and `not voice.is_connected()`;
`idle` is connected with neither `is_playing()` nor `is_paused()`. -/
inductive VoiceState
  | disconnected
  | idle
  | playing
  | paused
deriving DecidableEq, Repr

def VoiceState.isConnected : VoiceState → Bool
  | .disconnected => false
  | _ => true

/-- The mutable state of a `MusicPlayer` instance (the fields of
`MusicPlayer.__init__` that the verified operations touch).  Task handles
become booleans/counters recording whether the task is alive, and
`loggedErrors` counts calls of `logger.exception` in the player loop. -/
structure PlayerState where
  queue : List Track
  current : Option Track
  voice : VoiceState
  history : List Track
  volume : ℚ
  startedMonotonic : Option ℚ
  pausedAt : Option ℚ
  pausedTotal : ℚ
  lastNpEdit : ℚ
  npInterval : ℚ
  lastActivity : ℚ
  emptySince : Option ℚ
  watcherActive : Bool
  updaterActive : Bool
  playerTaskActive : Bool
  bgTaskCount : Nat
  panelPresent : Bool
  textChannelSet : Bool
deriving DecidableEq, Repr

/-- `MusicPlayer.mark_activity`. -/
def markActivity (now : ℚ) (st : PlayerState) : PlayerState :=
  { st with lastActivity := now }

/-- `MusicPlayer.skip`: marks activity and stops the transport when it is
playing or paused (`voice.stop()` makes it neither). -/
def skip (now : ℚ) (st : PlayerState) : PlayerState :=
  let st := markActivity now st
  if st.voice = .playing ∨ st.voice = .paused then
    { st with voice := .idle }
  else st

/-- `MusicPlayer.add_track_front`: `queue._queue.appendleft(track)`. -/
def addTrackFront (t : Track) (st : PlayerState) : PlayerState :=
  { st with queue := t :: st.queue }

/-- `MusicPlayer.clear_queue`: drains the queue, returning the count. -/
def clearQueue (st : PlayerState) : Nat × PlayerState :=
  (st.queue.length, { st with queue := [] })

/-- Swap of two positions of a list, as Python's
`x[i], x[j] = x[j], x[i]` on a list; out-of-range indices leave the list
unchanged (never reached by `random.shuffle`). -/
def listSwap (l : List Track) (i j : Nat) : List Track :=
  match l.get? i, l.get? j with
  | some a, some b => (l.set i b).set j a
  | _, _ => l

/-- The loop of CPython's `random.shuffle`:
`for i in reversed(range(1, len(x))): j = randbelow(i+1); swap x[i] x[j]`.
`rand i` stands for the random draw at iteration `i`, reduced mod `i+1`
so that it lies in `[0, i]` as `_randbelow(i+1)` guarantees. -/
def shuffleAux (rand : Nat → Nat) : Nat → List Track → List Track
  | 0, l => l
  | Nat.succ i, l => shuffleAux rand i (listSwap l (i + 1) (rand (i + 1) % (i + 2)))

def randomShuffle (rand : Nat → Nat) (l : List Track) : List Track :=
  shuffleAux rand (l.length - 1) l

/-- `MusicPlayer.shuffle_queue`: copies the backing deque to a list,
shuffles it in place, writes it back, and returns `len(items)`. -/
def shuffleQueue (rand : Nat → Nat) (st : PlayerState) : Nat × PlayerState :=
  let items := randomShuffle rand st.queue
  (items.length, { st with queue := items })

/-- `MusicPlayer.remove_from_queue`: 1-based index; `index <= 0` raises
`ValueError`, an index past the end raises `IndexError`; otherwise the
element is popped from the copied list which atomically replaces the
backing deque.  The returned state is the queue after the call (unchanged
when an exception is raised). -/
def removeFromQueue (i : Int) (st : PlayerState) :
    Except String Track × PlayerState :=
  if i ≤ 0 then (.error "Index must be 1 or greater.", st)
  else
    let idx := (i - 1).toNat
    if h : idx < st.queue.length then
      (.ok (st.queue.get ⟨idx, h⟩), { st with queue := st.queue.eraseIdx idx })
    else (.error "Index out of range.", st)

/-- `MusicPlayer.skip_to_queue_index`: same bounds checks; on success the
items strictly before the 1-based index are dropped, `skip()` is called,
and the number dropped (`len(items[:idx])`) is returned. -/
def skipToQueueIndex (now : ℚ) (i : Int) (st : PlayerState) :
    Except String Nat × PlayerState :=
  if i ≤ 0 then (.error "Index must be 1 or greater.", st)
  else
    let idx := (i - 1).toNat
    if idx < st.queue.length then
      let dropped := st.queue.take idx
      let st := { st with queue := st.queue.drop idx }
      (.ok dropped.length, skip now st)
    else (.error "Index out of range.", st)

/-- `history.append` on a `deque(maxlen=cap)`: append at the right end,
evicting from the left end when over capacity. -/
def boundedPush (cap : Nat) (h : List Track) (x : Track) : List Track :=
  let h := h ++ [x]
  if h.length ≤ cap then h else h.drop (h.length - cap)

/-- `history.pop()` on a deque: removes and returns the right-end (most
recently pushed) element, or signals empty. -/
def historyPop (h : List Track) : Option (Track × List Track) :=
  match h.getLast? with
  | none => none
  | some x => some (x, h.dropLast)

/-- `MusicPlayer.previous`: returns `False` when the history is empty;
otherwise pops the most recent history entry, pushes the current track (if
any) then the popped entry onto the queue front, and calls `skip()`. -/
def previous (now : ℚ) (st : PlayerState) : Bool × PlayerState :=
  match historyPop st.history with
  | none => (false, st)
  | some (prev, rest) =>
    let st := { st with history := rest }
    let st := match st.current with
      | some c => addTrackFront c st
      | none => st
    let st := addTrackFront prev st
    (true, skip now st)

/-- `MusicPlayer.pause`: marks activity; only when the transport is playing
does it pause it and, if no pause is in progress, record `paused_at = now`. -/
def pause (now : ℚ) (st : PlayerState) : PlayerState :=
  let st := markActivity now st
  if st.voice = .playing then
    { st with
      voice := .paused
      pausedAt := match st.pausedAt with
        | none => some now
        | some p => some p }
  else st

/-- `MusicPlayer.resume`: marks activity; only when the transport is paused
does it resume it and, if a pause was recorded, fold `now - paused_at` into
`paused_total` and clear `paused_at`. -/
def resume (now : ℚ) (st : PlayerState) : PlayerState :=
  let st := markActivity now st
  if st.voice = .paused then
    match st.pausedAt with
    | some p =>
      { st with voice := .playing, pausedTotal := st.pausedTotal + (now - p),
                pausedAt := none }
    | none => { st with voice := .playing }
  else st

/-- `MusicPlayer._elapsed_seconds`: `0` when playback never started,
otherwise `(now - started) - (paused_total + paused_extra)` truncated to an
`int` and clamped at `0` (`max(0, int(elapsed))`). -/
def elapsedSeconds (now : ℚ) (st : PlayerState) : Nat :=
  match st.startedMonotonic with
  | none => 0
  | some start =>
    let pausedExtra : ℚ := match st.pausedAt with
      | some p => now - p
      | none => 0
    (⌊(now - start) - (st.pausedTotal + pausedExtra)⌋).toNat

/-- Outcome of one `message.edit` attempt against the Discord API:
success, a `discord.HTTPException` (the rate-limit class the throttle
reacts to), or any other exception (swallowed by the bare `except`). -/
inductive EditOutcome
  | success
  | rateLimited
  | otherError
deriving DecidableEq, Repr

/-- `MusicPlayer.update_panel_message(force)`.  Returns the new state and
whether an edit of the panel message was attempted.  The guards mirror the
Python code in order: no text channel → return; nothing current and not
forced → return; no panel message → `ensure_panel_message()` is called
instead (which never touches `_last_np_edit` / `_np_interval`; whether it
leaves a panel behind depends on the send succeeding); otherwise the
throttle window is checked unless forced, and the edit outcome adjusts the
interval: success sets `last_np_edit = now` and interval to
`max(1.0, interval * 0.9)`; an HTTP error sets interval to
`min(5.0, interval * 1.5)`; any other error changes nothing. -/
def updatePanelMessage (now : ℚ) (force : Bool) (outcome : EditOutcome)
    (st : PlayerState) : PlayerState × Bool :=
  if !st.textChannelSet then (st, false)
  else if st.current = none ∧ !force then (st, false)
  else if !st.panelPresent then
    ({ st with panelPresent := outcome = .success }, false)
  else if !force ∧ now - st.lastNpEdit < st.npInterval then (st, false)
  else
    match outcome with
    | .success =>
      ({ st with lastNpEdit := now, npInterval := max 1 (st.npInterval * (9 / 10)) },
       true)
    | .rateLimited =>
      ({ st with npInterval := min 5 (st.npInterval * (3 / 2)) }, true)
    | .otherError => (st, true)

/-- `MusicPlayer.stop`: cancels the disconnect watcher and clears
`_empty_since`, drains the queue, clears the current track, cancels the
background tasks and the now-playing updater, disconnects the transport,
cancels the player loop task, and finally force-updates the panel message
when one exists.  History and volume are not mentioned by the method. -/
def stop (now : ℚ) (outcome : EditOutcome) (st : PlayerState) : PlayerState :=
  let st := { st with
    watcherActive := false
    emptySince := none
    queue := []
    current := none
    bgTaskCount := 0
    updaterActive := false
    voice := .disconnected
    playerTaskActive := false }
  if st.panelPresent then (updatePanelMessage now true outcome st).1 else st

/-- `EMPTY_CHANNEL_DISCONNECT_SECONDS` (default 30). -/
def emptyChannelDisconnectSeconds : ℚ := 30

/-- `IDLE_DISCONNECT_SECONDS` (default 300). -/
def idleDisconnectSeconds : ℚ := 300

/-- One poll of the `_start_disconnect_watcher` loop as observed after the
5-second sleep: whether the voice client is still connected, whether it has
a channel, the number of non-bot members in it, `time.monotonic()`, whether
the transport is playing or paused, whether the queue is empty, and the
last recorded activity time. -/
structure WatchObs where
  connected : Bool
  channelPresent : Bool
  audience : Nat
  now : ℚ
  busy : Bool
  queueEmpty : Bool
  lastActivity : ℚ
deriving DecidableEq, Repr

/-- Result of one watchdog poll: keep looping with a new `_empty_since`,
exit without stopping (voice gone), or call `self.stop()` and exit. -/
inductive WatchStep
  | next (emptySince : Option ℚ)
  | exitNoStop
  | exitStop
deriving DecidableEq, Repr

/-- The idle condition of the watchdog (condition B in the source): not
busy, queue empty, and no activity for `IDLE_DISCONNECT_SECONDS`. -/
def idleCond (o : WatchObs) : Prop :=
  o.busy = false ∧ o.queueEmpty = true ∧
    idleDisconnectSeconds ≤ o.now - o.lastActivity

instance (o : WatchObs) : Decidable (idleCond o) := by
  unfold idleCond; infer_instance

/-- The empty-room trip test: zero audience and an `_empty_since` of at
least `EMPTY_CHANNEL_DISCONNECT_SECONDS` ago. -/
def emptyTrip (es : Option ℚ) (o : WatchObs) : Bool :=
  o.audience = 0 &&
    match es with
    | some t => decide (emptyChannelDisconnectSeconds ≤ o.now - t)
    | none => false

/-- One iteration of the watchdog loop body (`bot.py` lines 462–501),
given the current `_empty_since` and the poll's observation. -/
def watchdogStep (es : Option ℚ) (o : WatchObs) : WatchStep :=
  if !o.connected then .exitNoStop
  else if !o.channelPresent then .next es
  else
    let es' : Option ℚ :=
      if o.audience = 0 then
        match es with
        | none => some o.now
        | some t => some t
      else none
    if emptyTrip es o then .exitStop
    else if idleCond o then .exitStop
    else .next es'

/-- A whole run of the watchdog loop over a trace of observations; returns
the number of times `self.stop()` was called.  The loop body returns right
after calling `stop()`, so a run never processes further polls after a
trip. -/
def watchdogRun (es : Option ℚ) : List WatchObs → Nat
  | [] => 0
  | o :: os =>
    match watchdogStep es o with
    | .exitStop => 1
    | .exitNoStop => 0
    | .next es' => watchdogRun es' os

/-- Status of the consumer loop after one iteration: still looping, or
returned (which only the voice-disconnected check does). -/
inductive LoopStatus
  | looping
  | exited
deriving DecidableEq, Repr

/-- One iteration of `MusicPlayer._player_loop` (lines 866–914), for a
non-empty queue: pop the head into `current`; if the voice client is not
connected, clear `current` and return; otherwise reset the per-track
clock/throttle state and run the `try` body with the resolver outcome
`res`.  On success the track is enriched, playback starts at `now`
(starting watcher and updater, reposting the panel), the loop waits for
the completion callback, stops the updater and appends the (enriched)
current track to the bounded history.  On a resolver exception, or a
missing `info["url"]`, the error is logged and the updater stopped —
nothing else — and the loop continues. -/
def playerLoopIterCore (now : ℚ) (res : Except Unit YtInfo) (t : Track)
    (st : PlayerState) (loggedErrors : Nat) : PlayerState × LoopStatus × Nat :=
  let st := { st with current := some t }
  if st.voice = .disconnected then
    ({ st with current := none, playerTaskActive := false }, .exited, loggedErrors)
  else
    let st := { st with startedMonotonic := none, pausedAt := none,
                        pausedTotal := 0, lastNpEdit := 0, npInterval := 1 }
    match res with
    | .error _ =>
      ({ st with updaterActive := false }, .looping, loggedErrors + 1)
    | .ok info =>
      let cur := enrichTrack t info
      let st := { st with current := some cur }
      match info.url with
      | none =>
        ({ st with updaterActive := false }, .looping, loggedErrors + 1)
      | some _ =>
        let st := { st with startedMonotonic := some now, voice := .playing,
                            lastActivity := now, watcherActive := true,
                            panelPresent := true, updaterActive := true }
        let st := { st with updaterActive := false, voice := .idle,
                            history := boundedPush 25 st.history cur }
        (st, .looping, loggedErrors)

/-- One iteration of the player loop starting from `queue.get()`; when the
queue is empty the consumer blocks, which we report as `looping` with the
state unchanged. -/
def playerLoopIter (now : ℚ) (res : Except Unit YtInfo) (st : PlayerState)
    (loggedErrors : Nat) : PlayerState × LoopStatus × Nat :=
  match st.queue with
  | [] => (st, .looping, loggedErrors)
  | t :: rest => playerLoopIterCore now res t { st with queue := rest } loggedErrors

/-- Runs the player loop through one resolver outcome per iteration,
stopping when the loop returns or the queue empties. -/
def playerLoopRun (now : ℚ) (st : PlayerState) (loggedErrors : Nat) :
    List (Except Unit YtInfo) → PlayerState × Nat
  | [] => (st, loggedErrors)
  | r :: rs =>
    match st.queue with
    | [] => (st, loggedErrors)
    | _ :: _ =>
      match playerLoopIter now r st loggedErrors with
      | (st', .looping, le') => playerLoopRun now st' le' rs
      | (st', .exited, le') => (st', le')

/-- The state built by `MusicPlayer.__init__` with `DEFAULT_VOLUME = 1.0`
and the construction-time `time.monotonic()` taken as 0. -/
def initPlayer : PlayerState where
  queue := []
  current := none
  voice := .disconnected
  history := []
  volume := 1
  startedMonotonic := none
  pausedAt := none
  pausedTotal := 0
  lastNpEdit := 0
  npInterval := 1
  lastActivity := 0
  emptySince := none
  watcherActive := false
  updaterActive := false
  playerTaskActive := false
  bgTaskCount := 0
  panelPresent := false
  textChannelSet := false

/-- A closed sample track, used to instantiate universally quantified
statements on concrete inputs. -/
def sampleTrack : Track where
  query := "some song"
  requestedBy := "@user"

/-- Whether a call returned normally (`true`) or raised (`false`). -/
def exceptOk {α : Type} : Except String α → Bool
  | .ok _ => true
  | .error _ => false

/-! ### Helper lemmas -/

lemma multiset_set_add (l : List Track) (i : Nat) (b : Track) (h : i < l.length) :
    ((l.set i b : List Track) : Multiset Track) + {l[i]} =
      (l : Multiset Track) + {b} := by
  induction l generalizing i with
  | nil => simp at h
  | cons a t ih =>
    cases i with
    | zero =>
      simp only [List.set, List.getElem_cons_zero, ← Multiset.cons_coe,
        ← Multiset.singleton_add]
      abel
    | succ n =>
      have hn : n < t.length := by simpa using h
      simp only [List.set, List.getElem_cons_succ, ← Multiset.cons_coe,
        ← Multiset.singleton_add]
      rw [add_assoc, add_assoc, ih n hn]

lemma listSwap_multiset (l : List Track) (i j : Nat) :
    ((listSwap l i j : List Track) : Multiset Track) = (l : Multiset Track) := by
  unfold listSwap
  cases hi : l.get? i with
  | none => simp
  | some a =>
    cases hj : l.get? j with
    | none => simp
    | some b =>
      simp only
      have hi' : i < l.length := List.get?_eq_some.mp hi |>.1
      have hj' : j < l.length := List.get?_eq_some.mp hj |>.1
      have ha : l[i] = a := by
        have := List.get?_eq_some.mp hi
        simpa [List.get_eq_getElem] using this.2
      have hb : l[j] = b := by
        have := List.get?_eq_some.mp hj
        simpa [List.get_eq_getElem] using this.2
      by_cases hij : i = j
      · subst hij
        have hab : a = b := by rw [← ha, hb]
        subst hab
        rw [List.set_set]
        have := multiset_set_add l i a hi'
        rw [ha] at this
        exact add_right_cancel this
      · have hj'' : j < (l.set i b).length := by simpa using hj'
        have h1 := multiset_set_add (l.set i b) j a hj''
        have h2 := multiset_set_add l i b hi'
        rw [ha] at h2
        have hgb : (l.set i b)[j] = b := by
          rw [List.getElem_set_ne hij]
          exact hb
        rw [hgb] at h1
        rw [h2] at h1
        exact add_right_cancel h1

lemma shuffleAux_multiset (rand : Nat → Nat) :
    ∀ (i : Nat) (l : List Track),
      ((shuffleAux rand i l : List Track) : Multiset Track) = (l : Multiset Track)
  | 0, _ => rfl
  | Nat.succ i, l => by
    rw [shuffleAux, shuffleAux_multiset rand i, listSwap_multiset]

lemma randomShuffle_multiset (rand : Nat → Nat) (l : List Track) :
    ((randomShuffle rand l : List Track) : Multiset Track) = (l : Multiset Track) :=
  shuffleAux_multiset rand (l.length - 1) l

lemma randomShuffle_length (rand : Nat → Nat) (l : List Track) :
    (randomShuffle rand l).length = l.length := by
  have := congrArg Multiset.card (randomShuffle_multiset rand l)
  simpa using this

lemma playerLoopIter_cons (now : ℚ) (res : Except Unit YtInfo) (st : PlayerState)
    (t : Track) (rest : List Track) (le : Nat) (hq : st.queue = t :: rest) :
    playerLoopIter now res st le =
      playerLoopIterCore now res t { st with queue := rest } le := by
  rw [playerLoopIter, hq]

lemma playerLoopIterCore_error (now : ℚ) (t : Track) (st : PlayerState) (le : Nat)
    (hv : st.voice ≠ .disconnected) :
    playerLoopIterCore now (.error ()) t st le =
      ({ st with current := some t, startedMonotonic := none, pausedAt := none,
                 pausedTotal := 0, lastNpEdit := 0, npInterval := 1,
                 updaterActive := false }, .looping, le + 1) := by
  unfold playerLoopIterCore
  rw [if_neg (by simpa using hv)]

lemma playerLoopIterCore_ok_noUrl (now : ℚ) (info : YtInfo) (t : Track)
    (st : PlayerState) (le : Nat) (hv : st.voice ≠ .disconnected)
    (hurl : info.url = none) :
    playerLoopIterCore now (.ok info) t st le =
      ({ st with current := some (enrichTrack t info), startedMonotonic := none,
                 pausedAt := none, pausedTotal := 0, lastNpEdit := 0,
                 npInterval := 1, updaterActive := false }, .looping, le + 1) := by
  unfold playerLoopIterCore
  rw [if_neg (by simpa using hv)]
  dsimp only
  rw [hurl]

lemma playerLoopIterCore_ok_url (now : ℚ) (info : YtInfo) (t : Track)
    (st : PlayerState) (le : Nat) (u : String) (hv : st.voice ≠ .disconnected)
    (hurl : info.url = some u) :
    playerLoopIterCore now (.ok info) t st le =
      ({ st with current := some (enrichTrack t info), startedMonotonic := some now,
                 pausedAt := none, pausedTotal := 0, lastNpEdit := 0,
                 npInterval := 1, voice := .idle, lastActivity := now,
                 watcherActive := true, panelPresent := true,
                 updaterActive := false,
                 history := boundedPush 25 st.history (enrichTrack t info) },
       .looping, le) := by
  unfold playerLoopIterCore
  rw [if_neg (by simpa using hv)]
  dsimp only
  rw [hurl]

/-! ### Claim theorems -/

/-- C8: for every queue of N pending tracks, `shuffle_queue` returns N, the
multiset of queued tracks after the shuffle equals the multiset before
(no loss or duplication), and the currently-playing track is untouched. -/
theorem C8_shuffle_preserves_queue (rand : Nat → Nat) (st : PlayerState) :
    (shuffleQueue rand st).1 = st.queue.length ∧
    (((shuffleQueue rand st).2.queue : List Track) : Multiset Track) =
      (st.queue : Multiset Track) ∧
    (shuffleQueue rand st).2.current = st.current :=
  ⟨randomShuffle_length rand st.queue, randomShuffle_multiset rand st.queue, rfl⟩

lemma skip_queue (now : ℚ) (st : PlayerState) : (skip now st).queue = st.queue := by
  unfold skip markActivity
  dsimp only
  split <;> rfl

lemma removeFromQueue_err_iff (st : PlayerState) (p : Int) :
    exceptOk (removeFromQueue p st).1 = false ↔
      p ≤ 0 ∨ (st.queue.length : Int) < p := by
  unfold removeFromQueue
  by_cases hp : p ≤ 0
  · simp [hp, exceptOk]
  · rw [if_neg hp]
    by_cases hin : (p - 1).toNat < st.queue.length
    · rw [dif_pos hin]
      simp only [exceptOk]
      constructor
      · intro h; exact absurd h (by simp)
      · intro h; omega
    · rw [dif_neg hin]
      simp only [exceptOk]
      constructor
      · intro _; omega
      · intro _; trivial

lemma skipToQueueIndex_err_iff (st : PlayerState) (now : ℚ) (p : Int) :
    exceptOk (skipToQueueIndex now p st).1 = false ↔
      p ≤ 0 ∨ (st.queue.length : Int) < p := by
  unfold skipToQueueIndex
  by_cases hp : p ≤ 0
  · simp [hp, exceptOk]
  · rw [if_neg hp]
    by_cases hin : (p - 1).toNat < st.queue.length
    · rw [if_pos hin]
      simp only [exceptOk]
      constructor
      · intro h; exact absurd h (by simp)
      · intro h; omega
    · rw [if_neg hin]
      simp only [exceptOk]
      constructor
      · intro _; omega
      · intro _; trivial

lemma removeFromQueue_fail_frame (st : PlayerState) (p : Int)
    (h : exceptOk (removeFromQueue p st).1 = false) :
    (removeFromQueue p st).2 = st := by
  unfold removeFromQueue at h ⊢
  by_cases hp : p ≤ 0
  · rw [if_pos hp]
  · rw [if_neg hp] at h ⊢
    by_cases hin : (p - 1).toNat < st.queue.length
    · rw [dif_pos hin] at h
      simp [exceptOk] at h
    · rw [dif_neg hin]

lemma skipToQueueIndex_fail_frame (st : PlayerState) (now : ℚ) (p : Int)
    (h : exceptOk (skipToQueueIndex now p st).1 = false) :
    (skipToQueueIndex now p st).2 = st := by
  unfold skipToQueueIndex at h ⊢
  by_cases hp : p ≤ 0
  · rw [if_pos hp]
  · rw [if_neg hp] at h ⊢
    by_cases hin : (p - 1).toNat < st.queue.length
    · rw [if_pos hin] at h
      simp [exceptOk] at h
    · rw [if_neg hin]

/-- C3: `remove_from_queue(p)` and `skip_to_queue_index(p)` raise exactly
when `p ≤ 0` or `p >` queue length, leaving the queue unchanged; on success
`remove` returns the track at 1-based position p and removes it preserving
the order of the rest, and `skip_to` drops exactly the p−1 tracks before
position p and returns that count. -/
theorem C3_remove_skipto_bounds (st : PlayerState) (now : ℚ) (p : Int) :
    ((exceptOk (removeFromQueue p st).1 = false) ↔
      (p ≤ 0 ∨ (st.queue.length : Int) < p)) ∧
    ((exceptOk (skipToQueueIndex now p st).1 = false) ↔
      (p ≤ 0 ∨ (st.queue.length : Int) < p)) ∧
    (exceptOk (removeFromQueue p st).1 = false → (removeFromQueue p st).2 = st) ∧
    (exceptOk (skipToQueueIndex now p st).1 = false →
      (skipToQueueIndex now p st).2 = st) ∧
    (1 ≤ p → ∀ hlt : (p - 1).toNat < st.queue.length,
      (removeFromQueue p st).1 = .ok (st.queue.get ⟨(p - 1).toNat, hlt⟩) ∧
      (removeFromQueue p st).2.queue =
        st.queue.take (p - 1).toNat ++ st.queue.drop ((p - 1).toNat + 1) ∧
      (skipToQueueIndex now p st).1 = .ok ((p : Int) - 1).toNat ∧
      (skipToQueueIndex now p st).2.queue = st.queue.drop (p - 1).toNat) := by
  refine ⟨removeFromQueue_err_iff st p, skipToQueueIndex_err_iff st now p,
    removeFromQueue_fail_frame st p, skipToQueueIndex_fail_frame st now p,
    fun hp hlt => ⟨?_, ?_, ?_, ?_⟩⟩
  · unfold removeFromQueue
    rw [if_neg (by omega), dif_pos hlt]
  · unfold removeFromQueue
    rw [if_neg (by omega), dif_pos hlt]
    simpa using List.eraseIdx_eq_take_drop_succ st.queue (p - 1).toNat
  · unfold skipToQueueIndex
    rw [if_neg (by omega), if_pos hlt]
    simp [List.length_take]
    omega
  · unfold skipToQueueIndex
    rw [if_neg (by omega), if_pos hlt]
    simp [skip_queue]

/-- C3 witness: a concrete queue of two tracks, removing position 1. -/
theorem C3_remove_skipto_bounds_witness :
    let st := { initPlayer with queue := [sampleTrack, sampleTrack] }
    (removeFromQueue 1 st).1 = .ok sampleTrack ∧
    (skipToQueueIndex 0 2 st).2.queue = [sampleTrack] := by
  intro st
  have h := C3_remove_skipto_bounds st 0 1
  have h2 := C3_remove_skipto_bounds st 0 2
  refine ⟨?_, ?_⟩
  · have := (h.2.2.2.2 (by decide) (by decide)).1
    simpa using this
  · have := (h2.2.2.2.2 (by decide) (by decide)).2.2.2
    simpa using this

/-- C4: `previous()` on an empty history returns `False` and changes
nothing; on a non-empty history it pops the most recently pushed entry,
puts the current track (if any) at the queue head and then the popped
entry also at the head — so the popped entry plays next — leaves the
current track pointer alone, and invokes `skip()` (which marks activity
and stops a playing or paused transport). -/
theorem C4_previous (now : ℚ) (st : PlayerState) :
    (st.history = [] → previous now st = (false, st)) ∧
    (∀ prev rest, st.history = rest ++ [prev] →
      (previous now st).1 = true ∧
      (previous now st).2.queue =
        prev :: (st.current.toList ++ st.queue) ∧
      (previous now st).2.history = rest ∧
      (previous now st).2.current = st.current ∧
      (previous now st).2.lastActivity = now ∧
      (previous now st).2.voice = (skip now st).voice) := by
  constructor
  · intro h
    simp [previous, historyPop, h]
  · intro prev rest h
    have hpop : historyPop st.history = some (prev, rest) := by
      simp [historyPop, h, List.getLast?_concat, List.dropLast_concat]
    cases hc : st.current with
    | none =>
      simp [previous, hpop, hc, addTrackFront, skip, markActivity]
      split <;> simp_all
    | some c =>
      simp [previous, hpop, hc, addTrackFront, skip, markActivity]
      split <;> simp_all

/-- C4 witness: a one-entry history with a current track and a playing
transport. -/
theorem C4_previous_witness :
    let cur := { sampleTrack with title := some "current" }
    let prev := { sampleTrack with title := some "prev" }
    let st := { initPlayer with
                history := [prev]
                current := some cur
                voice := .playing }
    (previous 7 st).1 = true ∧
    (previous 7 st).2.queue = [prev, cur] ∧
    (previous 7 st).2.history = [] ∧
    previous 7 { initPlayer with queue := [sampleTrack] } =
      (false, { initPlayer with queue := [sampleTrack] }) := by
  intro cur prev st
  have h := (C4_previous 7 st).2 prev [] rfl
  have h0 := (C4_previous 7 { initPlayer with queue := [sampleTrack] }).1 rfl
  exact ⟨h.1, by simpa using h.2.1, h.2.2.1, h0⟩

lemma boundedPush_length_le (cap : Nat) (h : List Track) (x : Track)
    (hc : h.length ≤ cap) : (boundedPush cap h x).length ≤ cap := by
  unfold boundedPush
  dsimp only
  split
  · omega
  · simp only [List.length_drop]
    omega

lemma foldl_boundedPush_length (cap : Nat) :
    ∀ (xs : List Track) (acc : List Track), acc.length ≤ cap →
      (xs.foldl (boundedPush cap) acc).length ≤ cap
  | [], _, h => h
  | x :: xs, acc, h =>
    foldl_boundedPush_length cap xs (boundedPush cap acc x)
      (boundedPush_length_le cap acc x h)

/-- C7: a history of capacity 25 never exceeds 25 entries under any
sequence of pushes starting from the empty history of `__init__`; eviction
is FIFO and retrieval LIFO: with capacity 2, pushing A, B, C leaves exactly
[B, C], and popping yields C, then B, then empty. -/
theorem C7_history_bounded :
    (∀ (xs : List Track), (xs.foldl (boundedPush 25) []).length ≤ 25) ∧
    (∀ (a b c : Track),
      boundedPush 2 (boundedPush 2 (boundedPush 2 [] a) b) c = [b, c] ∧
      historyPop [b, c] = some (c, [b]) ∧
      historyPop [b] = some (b, []) ∧
      historyPop ([] : List Track) = none) := by
  constructor
  · intro xs
    exact foldl_boundedPush_length 25 xs [] (by simp)
  · intro a b c
    refine ⟨?_, ?_, ?_, ?_⟩ <;> simp [boundedPush, historyPop]

/-- C9: elapsed playback time equals
(now − start) − (cumulative paused + (now − pause-began when paused)),
clamped at zero; elapsed right after resetting for a new track is 0;
elapsed does not advance across a pause–resume interval; and a second
consecutive `pause()` (or `resume()`) leaves the clock state
(playback-start, pause-began, cumulative paused) exactly as one call does. -/
theorem C9_activity_clock (st : PlayerState) (now start t1 t2 : ℚ) :
    (st.startedMonotonic = some start →
      (elapsedSeconds now st : Int) =
        max 0 ⌊(now - start) - (st.pausedTotal +
          (match st.pausedAt with | some p => now - p | none => 0))⌋) ∧
    elapsedSeconds now { st with startedMonotonic := some now, pausedAt := none,
                                 pausedTotal := 0 } = 0 ∧
    (st.voice = .playing → st.pausedAt = none →
      elapsedSeconds t2 (pause t1 st) = elapsedSeconds t1 st ∧
      elapsedSeconds t2 (resume t2 (pause t1 st)) = elapsedSeconds t1 st) ∧
    ((pause t2 (pause t1 st)).startedMonotonic = (pause t1 st).startedMonotonic ∧
     (pause t2 (pause t1 st)).pausedAt = (pause t1 st).pausedAt ∧
     (pause t2 (pause t1 st)).pausedTotal = (pause t1 st).pausedTotal) ∧
    ((resume t2 (resume t1 st)).startedMonotonic = (resume t1 st).startedMonotonic ∧
     (resume t2 (resume t1 st)).pausedAt = (resume t1 st).pausedAt ∧
     (resume t2 (resume t1 st)).pausedTotal = (resume t1 st).pausedTotal) := by
  refine ⟨?_, ?_, ?_, ?_, ?_⟩
  · intro hs
    rw [elapsedSeconds, hs]
    rw [Int.toNat_eq_max, max_comm]
  · simp [elapsedSeconds]
  · intro hv hpa
    have hpause : pause t1 st =
        { st with voice := .paused, pausedAt := some t1, lastActivity := t1 } := by
      simp [pause, markActivity, hv, hpa]
    constructor
    · rw [hpause]
      cases hs : st.startedMonotonic with
      | none => simp [elapsedSeconds, hs]
      | some s =>
        simp only [elapsedSeconds, hs, hpa]
        have : (t2 - s) - (st.pausedTotal + (t2 - t1)) =
            (t1 - s) - (st.pausedTotal + 0) := by ring
        rw [this]
    · have hresume : resume t2 (pause t1 st) =
          { st with voice := .playing, pausedAt := none,
                    pausedTotal := st.pausedTotal + (t2 - t1),
                    lastActivity := t2 } := by
        rw [hpause]
        simp [resume, markActivity]
      rw [hresume]
      cases hs : st.startedMonotonic with
      | none => simp [elapsedSeconds, hs]
      | some s =>
        simp only [elapsedSeconds, hs, hpa]
        have : (t2 - s) - (st.pausedTotal + (t2 - t1) + 0) =
            (t1 - s) - (st.pausedTotal + 0) := by ring
        rw [this]
  · cases hv : st.voice <;> cases hpa : st.pausedAt <;>
      simp [pause, markActivity, hv, hpa]
  · cases hv : st.voice <;> cases hpa : st.pausedAt <;>
      simp [resume, markActivity, hv, hpa]

/-- C9 witness: a playing clock started at 0, paused at 10 and observed or
resumed at 25. -/
theorem C9_activity_clock_witness :
    let st := { initPlayer with
                voice := .playing
                startedMonotonic := some 0 }
    (elapsedSeconds 10 st : Int) =
      max 0 ⌊((10 : ℚ) - 0) - (0 + 0)⌋ ∧
    elapsedSeconds 25 (pause 10 st) = elapsedSeconds 10 st ∧
    elapsedSeconds 25 (resume 25 (pause 10 st)) = elapsedSeconds 10 st := by
  intro st
  have h := C9_activity_clock st 10 0 10 25
  have h1 := h.1 rfl
  have h3 := h.2.2.1 rfl rfl
  exact ⟨h1, h3.1, h3.2⟩

lemma updatePanelMessage_frame (now : ℚ) (force : Bool) (outcome : EditOutcome)
    (st : PlayerState) :
    (updatePanelMessage now force outcome st).1.history = st.history ∧
    (updatePanelMessage now force outcome st).1.volume = st.volume ∧
    (updatePanelMessage now force outcome st).1.queue = st.queue ∧
    (updatePanelMessage now force outcome st).1.current = st.current ∧
    (updatePanelMessage now force outcome st).1.watcherActive = st.watcherActive ∧
    (updatePanelMessage now force outcome st).1.updaterActive = st.updaterActive ∧
    (updatePanelMessage now force outcome st).1.playerTaskActive = st.playerTaskActive ∧
    (updatePanelMessage now force outcome st).1.bgTaskCount = st.bgTaskCount ∧
    (updatePanelMessage now force outcome st).1.voice = st.voice ∧
    (updatePanelMessage now force outcome st).1.emptySince = st.emptySince := by
  unfold updatePanelMessage
  split
  · simp
  · split
    · simp
    · split
      · simp
      · split
        · simp
        · cases outcome <;> simp

/-- C10: `stop()` empties the queue, clears the current track, cancels the
watchdog, updater, player-loop and background tasks, and disconnects the
transport — but leaves the history contents and the volume unchanged, so
the retained session still answers `previous()` from its pre-stop history
and keeps its pre-stop volume. -/
theorem C10_stop_frame (now : ℚ) (outcome : EditOutcome) (st : PlayerState) :
    (stop now outcome st).history = st.history ∧
    (stop now outcome st).volume = st.volume ∧
    (stop now outcome st).queue = [] ∧
    (stop now outcome st).current = none ∧
    (stop now outcome st).watcherActive = false ∧
    (stop now outcome st).updaterActive = false ∧
    (stop now outcome st).playerTaskActive = false ∧
    (stop now outcome st).bgTaskCount = 0 ∧
    (stop now outcome st).voice = .disconnected ∧
    (stop now outcome st).emptySince = none ∧
    (∀ now2, (previous now2 (stop now outcome st)).1 = !st.history.isEmpty ∧
      (previous now2 (stop now outcome st)).2.volume = st.volume) := by
  have hframe :
      (stop now outcome st).history = st.history ∧
      (stop now outcome st).volume = st.volume ∧
      (stop now outcome st).queue = [] ∧
      (stop now outcome st).current = none ∧
      (stop now outcome st).watcherActive = false ∧
      (stop now outcome st).updaterActive = false ∧
      (stop now outcome st).playerTaskActive = false ∧
      (stop now outcome st).bgTaskCount = 0 ∧
      (stop now outcome st).voice = .disconnected ∧
      (stop now outcome st).emptySince = none := by
    unfold stop
    dsimp only
    split
    · have h := updatePanelMessage_frame now true outcome
        { st with watcherActive := false, emptySince := none, queue := [],
                  current := none, bgTaskCount := 0, updaterActive := false,
                  voice := .disconnected, playerTaskActive := false }
      exact ⟨h.1, h.2.1, h.2.2.1, h.2.2.2.1, h.2.2.2.2.1, h.2.2.2.2.2.1,
        h.2.2.2.2.2.2.1, h.2.2.2.2.2.2.2.1, h.2.2.2.2.2.2.2.2.1,
        h.2.2.2.2.2.2.2.2.2⟩
    · simp
  refine ⟨hframe.1, hframe.2.1, hframe.2.2.1, hframe.2.2.2.1, hframe.2.2.2.2.1,
    hframe.2.2.2.2.2.1, hframe.2.2.2.2.2.2.1, hframe.2.2.2.2.2.2.2.1,
    hframe.2.2.2.2.2.2.2.2.1, hframe.2.2.2.2.2.2.2.2.2, ?_⟩
  intro now2
  cases hh : st.history with
  | nil =>
    have h1 : (stop now outcome st).history = [] := by rw [hframe.1, hh]
    simp [previous, historyPop, h1, hh, hframe.2.1]
  | cons x xs =>
    have h1 : (stop now outcome st).history = x :: xs := by rw [hframe.1, hh]
    rcases List.eq_nil_or_concat (x :: xs) with hc | ⟨ys, y, hc⟩
    · simp at hc
    · have hpop : historyPop (stop now outcome st).history = some (y, ys) := by
        simp [historyPop, h1, hc, List.getLast?_concat, List.dropLast_concat]
      constructor
      · simp [previous, hpop]
      · cases hcur : (stop now outcome st).current with
        | none =>
          simp [previous, hpop, hcur, addTrackFront, skip, markActivity]
          split <;> simp [hframe.2.1]
        | some c =>
          simp [previous, hpop, hcur, addTrackFront, skip, markActivity]
          split <;> simp [hframe.2.1]

lemma updatePanelMessage_attempted (now : ℚ) (force : Bool) (o : EditOutcome)
    (st : PlayerState) (h : (updatePanelMessage now force o st).2 = true) :
    (updatePanelMessage now force o st).1 =
      (match o with
       | .success =>
         { st with lastNpEdit := now, npInterval := max 1 (st.npInterval * (9 / 10)) }
       | .rateLimited => { st with npInterval := min 5 (st.npInterval * (3 / 2)) }
       | .otherError => st) := by
  unfold updatePanelMessage at h ⊢
  split at h
  · simp at h
  · split at h
    · simp at h
    · split at h
      · simp at h
      · split at h
        · simp at h
        · rename_i h1 h2 h3 h4
          rw [if_neg h1, if_neg h2, if_neg h3, if_neg h4]
          cases o <;> rfl

/-- C5 counterexample: with the interval at the 5.0s cap — reachable from
the fresh 1.0s interval by four consecutive rate-limited failures
(1.0 → 1.5 → 2.25 → 3.375 → 5.0) — a further rate-limit failure leaves the
interval at exactly 5.0: the claimed strict increase does not happen. -/
theorem C5_counterexample :
    let st := { initPlayer with
                textChannelSet := true
                panelPresent := true
                npInterval := 5 }
    (updatePanelMessage 100 true .rateLimited st).2 = true ∧
    (updatePanelMessage 100 true .rateLimited st).1.npInterval = 5 ∧
    ¬ st.npInterval < (updatePanelMessage 100 true .rateLimited st).1.npInterval := by
  intro st
  have h2 : (updatePanelMessage 100 true .rateLimited st).2 = true := by
    simp [updatePanelMessage, st, initPlayer]
  have h1 := updatePanelMessage_attempted 100 true .rateLimited st h2
  refine ⟨h2, ?_, ?_⟩
  · rw [h1]
    show min 5 (st.npInterval * (3 / 2)) = 5
    have : st.npInterval = 5 := rfl
    rw [this]
    norm_num
  · rw [h1]
    show ¬ st.npInterval < min 5 (st.npInterval * (3 / 2))
    have : st.npInterval = 5 := rfl
    rw [this]
    norm_num

/-- C5 (amended): the player loop resets the throttle to a 1.0s interval
(and a zeroed last-edit stamp) for each new track; whenever an edit is
attempted, success sets the interval to `max(1.0, interval*0.9)` — so from
an interval ≥ 1 it never increases and never drops below the 1.0 floor —
and a rate-limit failure sets it to `min(5.0, interval*1.5)` — never above
the 5.0 cap, and a strict increase whenever the interval was below the
cap; a non-forced update is skipped entirely (no edit, no state change)
while less than the interval has elapsed since the last successful edit;
and, given the text channel and panel message exist, a forced update
always attempts the edit. -/
theorem C5_refresh_throttle (st : PlayerState) (now : ℚ) (force : Bool)
    (o : EditOutcome) (res : Except Unit YtInfo) (t : Track)
    (rest : List Track) (le : Nat) :
    (st.queue = t :: rest → st.voice ≠ .disconnected →
      (playerLoopIter now res st le).1.npInterval = 1 ∧
      (playerLoopIter now res st le).1.lastNpEdit = 0) ∧
    ((updatePanelMessage now force .success st).2 = true →
      (updatePanelMessage now force .success st).1.npInterval =
        max 1 (st.npInterval * (9 / 10)) ∧
      (updatePanelMessage now force .success st).1.lastNpEdit = now ∧
      (1 ≤ st.npInterval →
        (updatePanelMessage now force .success st).1.npInterval ≤ st.npInterval ∧
        1 ≤ (updatePanelMessage now force .success st).1.npInterval)) ∧
    ((updatePanelMessage now force .rateLimited st).2 = true →
      (updatePanelMessage now force .rateLimited st).1.npInterval =
        min 5 (st.npInterval * (3 / 2)) ∧
      (updatePanelMessage now force .rateLimited st).1.npInterval ≤ 5 ∧
      (1 ≤ st.npInterval → st.npInterval < 5 →
        st.npInterval < (updatePanelMessage now force .rateLimited st).1.npInterval)) ∧
    (st.textChannelSet = true → st.panelPresent = true → force = false →
      now - st.lastNpEdit < st.npInterval →
      updatePanelMessage now false o st = (st, false)) ∧
    (st.textChannelSet = true → st.panelPresent = true →
      (updatePanelMessage now true o st).2 = true) := by
  refine ⟨?_, ?_, ?_, ?_, ?_⟩
  · intro hq hv
    rw [playerLoopIter_cons now res st t rest le hq]
    have hv2 : ({ st with queue := rest } : PlayerState).voice ≠ .disconnected := hv
    cases res with
    | error e =>
      rw [playerLoopIterCore_error now t { st with queue := rest } le hv2]
      exact ⟨rfl, rfl⟩
    | ok info =>
      cases hurl : info.url with
      | none =>
        rw [playerLoopIterCore_ok_noUrl now info t { st with queue := rest } le hv2 hurl]
        exact ⟨rfl, rfl⟩
      | some u =>
        rw [playerLoopIterCore_ok_url now info t { st with queue := rest } le u hv2 hurl]
        exact ⟨rfl, rfl⟩
  · intro h
    have ha := updatePanelMessage_attempted now force .success st h
    rw [ha]
    refine ⟨rfl, rfl, fun h1 => ⟨?_, ?_⟩⟩
    · show max 1 (st.npInterval * (9 / 10)) ≤ st.npInterval
      rw [max_le_iff]
      constructor
      · exact h1
      · nlinarith
    · exact le_max_left _ _
  · intro h
    have ha := updatePanelMessage_attempted now force .rateLimited st h
    rw [ha]
    refine ⟨rfl, min_le_left _ _, fun h1 h5 => ?_⟩
    show st.npInterval < min 5 (st.npInterval * (3 / 2))
    rw [lt_min_iff]
    constructor
    · exact h5
    · nlinarith
  · intro hch hpanel hforce hwin
    unfold updatePanelMessage
    rw [hch]
    simp only [Bool.not_true, Bool.false_eq_true, if_false]
    by_cases hcur : st.current = none
    · rw [if_pos ⟨hcur, rfl⟩]
    · rw [if_neg (by simp [hcur])]
      rw [hpanel]
      simp only [Bool.not_true, Bool.false_eq_true, if_false]
      rw [if_pos ⟨by simp, hwin⟩]
  · intro hch hpanel
    unfold updatePanelMessage
    rw [hch, hpanel]
    simp only [Bool.not_true, Bool.false_eq_true, if_false]
    rw [if_neg (by simp)]
    rw [if_neg (by simp)]
    cases o <;> simp

/-- C5 witness: a fresh throttle (interval 1.0, last edit 0) with a panel
and channel, observed at time 10 with a forced successful edit; and a
non-forced attempt at time 0.5 is skipped. -/
theorem C5_refresh_throttle_witness :
    let st := { initPlayer with
                textChannelSet := true
                panelPresent := true
                voice := .idle
                current := some sampleTrack }
    (updatePanelMessage 10 true .success st).1.npInterval ≤ st.npInterval ∧
    updatePanelMessage (1 / 2) false .success st = (st, false) ∧
    (updatePanelMessage 10 true .success st).2 = true ∧
    (playerLoopIter 0 (.error ()) { st with queue := [sampleTrack] } 0).1.npInterval
      = 1 := by
  intro st
  have h := C5_refresh_throttle st 10 true .success (.error ()) sampleTrack [] 0
  have hforced : (updatePanelMessage 10 true .success st).2 = true :=
    h.2.2.2.2 rfl rfl
  have hone : (1 : ℚ) ≤ st.npInterval := le_refl 1
  have hsucc := (h.2.1 hforced).2.2 hone
  have hskip := C5_refresh_throttle st (1 / 2) false .success (.error ())
    sampleTrack [] 0
  have hwin : (1 : ℚ) / 2 - st.lastNpEdit < st.npInterval := by
    show (1 : ℚ) / 2 - 0 < 1
    norm_num
  have hiter := (C5_refresh_throttle { st with queue := [sampleTrack] } 0 true
    .success (.error ()) sampleTrack [] 0).1 rfl (fun hc => nomatch hc)
  exact ⟨hsucc.1, hskip.2.2.2.1 rfl rfl rfl hwin, hforced, hiter.1⟩

/-- C2 counterexample: a track whose webpage URL was already known at
enqueue time has it overwritten by the resolver's different webpage URL
(`webpage_url = info.get("webpage_url") or ...` prefers the resolver), and
a track whose title was set to the empty string has it overwritten as well
(Python truthiness treats `""` as unset). -/
theorem C2_counterexample :
    (enrichTrack { query := "q", requestedBy := "u", webpageUrl := some "https://old" }
        { webpageUrl := some "https://new" }).webpageUrl = some "https://new" ∧
    some "https://new" ≠ some "https://old" ∧
    (enrichTrack { query := "q", requestedBy := "u", title := some "" }
        { title := some "T" }).title = some "T" ∧
    some "T" ≠ some "" := by
  refine ⟨by decide, by decide, by decide, by decide⟩

/-- C2 (amended): when the current track is enriched from resolver
metadata, the title, artist and thumbnail are filled only when previously
`None` or empty — a previously set non-empty value survives unchanged —
and the duration is filled exactly when previously `None`; the webpage
URL, however, is taken from the resolver whenever the resolver supplies a
non-empty one (overwriting any prior value), and only falls back to the
prior value (then to the query) otherwise.  The player loop applies
exactly this enrichment to the track it makes current. -/
theorem C2_enrichment (t : Track) (info : YtInfo) (st : PlayerState)
    (rest : List Track) (now : ℚ) (le : Nat) :
    (∀ s, t.title = some s → s ≠ "" → (enrichTrack t info).title = some s) ∧
    (∀ s, t.artist = some s → s ≠ "" → (enrichTrack t info).artist = some s) ∧
    (∀ s, t.thumbnail = some s → s ≠ "" →
      (enrichTrack t info).thumbnail = some s) ∧
    (∀ d, t.duration = some d → (enrichTrack t info).duration = some d) ∧
    (t.duration = none → (enrichTrack t info).duration = info.duration) ∧
    (∀ u, info.webpageUrl = some u → u ≠ "" →
      (enrichTrack t info).webpageUrl = some u) ∧
    (info.webpageUrl = none → ∀ w, t.webpageUrl = some w → w ≠ "" →
      (enrichTrack t info).webpageUrl = some w) ∧
    (t.title = none → ∃ s, (enrichTrack t info).title = some s) ∧
    (st.queue = t :: rest → st.voice ≠ .disconnected →
      (playerLoopIter now (.ok info) st le).1.current = some (enrichTrack t info)) := by
  refine ⟨?_, ?_, ?_, ?_, ?_, ?_, ?_, ?_, ?_⟩
  · intro s hs hne
    simp [enrichTrack, pyOr, optTruthy, hs, hne]
  · intro s hs hne
    simp [enrichTrack, pyOr, optTruthy, hs, hne]
  · intro s hs hne
    simp [enrichTrack, pyOr, optTruthy, hs, hne]
  · intro d hd
    simp [enrichTrack, hd]
  · intro hd
    simp [enrichTrack, hd]
  · intro u hu hne
    simp [enrichTrack, pyOr, optTruthy, hu, hne]
  · intro hu w hw hne
    simp [enrichTrack, pyOr, optTruthy, hu, hw, hne]
  · intro ht
    simp only [enrichTrack, pyOr, optTruthy, ht]
    cases hi : info.title with
    | none => exact ⟨"Unknown title", by simp⟩
    | some s =>
      by_cases hne : s = ""
      · subst hne
        exact ⟨"Unknown title", by simp⟩
      · exact ⟨s, by simp [hne]⟩
  · intro hq hv
    rw [playerLoopIter_cons now (.ok info) st t rest le hq]
    have hv2 : ({ st with queue := rest } : PlayerState).voice ≠ .disconnected := hv
    cases hurl : info.url with
    | none =>
      rw [playerLoopIterCore_ok_noUrl now info t { st with queue := rest } le hv2 hurl]
    | some u =>
      rw [playerLoopIterCore_ok_url now info t { st with queue := rest } le u hv2 hurl]

/-- C2 witness: a fully pre-filled track keeps its non-empty fields, while
its webpage URL is overwritten by the resolver. -/
theorem C2_enrichment_witness :
    let t := { sampleTrack with
               title := some "My title"
               artist := some "My artist"
               duration := some 200
               webpageUrl := some "https://old"
               thumbnail := some "https://thumb" }
    let info : YtInfo := { title := some "Other", webpageUrl := some "https://new" }
    (enrichTrack t info).title = some "My title" ∧
    (enrichTrack t info).duration = some 200 ∧
    (enrichTrack t info).webpageUrl = some "https://new" := by
  intro t info
  have h := C2_enrichment t info initPlayer [] 0 0
  exact ⟨h.1 "My title" rfl (by decide), h.2.2.2.1 200 rfl,
    h.2.2.2.2.2.1 "https://new" rfl (by decide)⟩

lemma playerLoopIterCore_keeps (now : ℚ) (res : Except Unit YtInfo) (t : Track)
    (st : PlayerState) (le : Nat) (hv : st.voice ≠ .disconnected) :
    (playerLoopIterCore now res t st le).2.1 = .looping ∧
    (playerLoopIterCore now res t st le).1.queue = st.queue ∧
    (playerLoopIterCore now res t st le).1.voice ≠ .disconnected := by
  cases res with
  | error e =>
    rw [playerLoopIterCore_error now t st le hv]
    exact ⟨rfl, rfl, hv⟩
  | ok info =>
    cases hurl : info.url with
    | none =>
      rw [playerLoopIterCore_ok_noUrl now info t st le hv hurl]
      exact ⟨rfl, rfl, hv⟩
    | some u =>
      rw [playerLoopIterCore_ok_url now info t st le u hv hurl]
      exact ⟨rfl, rfl, fun hc => nomatch hc⟩

lemma playerLoopRun_drains (now : ℚ) :
    ∀ (ress : List (Except Unit YtInfo)) (st : PlayerState) (le : Nat),
      st.voice ≠ .disconnected → st.queue.length ≤ ress.length →
      (playerLoopRun now st le ress).1.queue = []
  | [], st, le, _, hlen => by
    have : st.queue = [] := List.length_eq_zero.mp (Nat.le_zero.mp hlen)
    rw [playerLoopRun]
    exact this
  | r :: rs, st, le, hv, hlen => by
    rw [playerLoopRun]
    cases hq : st.queue with
    | nil => exact hq
    | cons t rest =>
      rw [playerLoopIter_cons now r st t rest le hq]
      have hv2 : ({ st with queue := rest } : PlayerState).voice ≠ .disconnected := hv
      have hk := playerLoopIterCore_keeps now r t { st with queue := rest } le hv2
      cases hres : playerLoopIterCore now r t { st with queue := rest } le with
      | mk st2 rest2 =>
        cases rest2 with
        | mk status le2 =>
          rw [hres] at hk
          cases status with
          | exited => exact absurd hk.1 (by simp)
          | looping =>
            dsimp only
            apply playerLoopRun_drains now rs st2 le2
            · exact hk.2.2
            · have hq2 : st2.queue = rest := hk.2.1
              rw [hq2]
              have := hlen
              rw [hq] at this
              simpa using Nat.lt_succ_iff.mp (Nat.lt_of_lt_of_le
                (Nat.lt_succ_of_le (le_refl rest.length)) this)

/-- C1: when resolving or starting a track fails in the player loop, the
error is logged, the track is dropped (not retried or re-enqueued, not
pushed to history), the ActivityClock fields (playback-start, pause-began,
cumulative paused) and the last-activity stamp are exactly as the per-track
reset left them — untouched by the failure handling — and the loop keeps
consuming: given one resolver outcome per queued track, the loop drains
the entire queue no matter how many resolutions fail. -/
theorem C1_loop_survives_failure (now : ℚ) (st : PlayerState) (t : Track)
    (rest : List Track) (le : Nat)
    (hq : st.queue = t :: rest) (hv : st.voice ≠ .disconnected) :
    (playerLoopIter now (.error ()) st le).2.1 = .looping ∧
    (playerLoopIter now (.error ()) st le).1.queue = rest ∧
    (playerLoopIter now (.error ()) st le).1.history = st.history ∧
    (playerLoopIter now (.error ()) st le).2.2 = le + 1 ∧
    (playerLoopIter now (.error ()) st le).1.startedMonotonic = none ∧
    (playerLoopIter now (.error ()) st le).1.pausedAt = none ∧
    (playerLoopIter now (.error ()) st le).1.pausedTotal = 0 ∧
    (playerLoopIter now (.error ()) st le).1.lastActivity = st.lastActivity ∧
    (∀ ress : List (Except Unit YtInfo), st.queue.length ≤ ress.length →
      (playerLoopRun now st le ress).1.queue = []) := by
  rw [playerLoopIter_cons now (.error ()) st t rest le hq]
  have hv2 : ({ st with queue := rest } : PlayerState).voice ≠ .disconnected := hv
  rw [playerLoopIterCore_error now t { st with queue := rest } le hv2]
  exact ⟨rfl, rfl, rfl, rfl, rfl, rfl, rfl, rfl,
    fun ress hlen => playerLoopRun_drains now ress st le hv hlen⟩

/-- C1 witness: a two-track queue whose first resolution fails. -/
theorem C1_loop_survives_failure_witness :
    let t2 := { sampleTrack with title := some "second" }
    let st := { initPlayer with queue := [sampleTrack, t2], voice := .idle }
    (playerLoopIter 0 (.error ()) st 0).2.1 = .looping ∧
    (playerLoopIter 0 (.error ()) st 0).1.queue = [t2] ∧
    (playerLoopRun 0 st 0 [.error (), .error ()]).1.queue = [] := by
  intro t2 st
  have h := C1_loop_survives_failure 0 st sampleTrack [t2] 0 rfl
    (fun hc => nomatch hc)
  exact ⟨h.1, h.2.1, h.2.2.2.2.2.2.2.2 [.error (), .error ()] (le_refl 2)⟩

lemma watchdogStep_accum (t : ℚ) (o : WatchObs) (hc : o.connected = true)
    (hch : o.channelPresent = true) (ha : o.audience = 0)
    (hlt : o.now - t < emptyChannelDisconnectSeconds) (hi : ¬ idleCond o) :
    watchdogStep (some t) o = .next (some t) := by
  unfold watchdogStep
  rw [hc]
  rw [hch]
  simp only [Bool.not_true, Bool.false_eq_true, if_false]
  have htrip : emptyTrip (some t) o = false := by
    unfold emptyTrip
    simp [ha, not_le.mpr hlt]
  rw [htrip]
  simp only [Bool.false_eq_true, if_false]
  rw [if_neg hi, ha]
  simp

lemma watchdogRun_le_one :
    ∀ (obs : List WatchObs) (es : Option ℚ), watchdogRun es obs ≤ 1
  | [], _ => Nat.zero_le 1
  | o :: os, es => by
    rw [watchdogRun]
    cases h : watchdogStep es o with
    | exitStop => exact le_refl 1
    | exitNoStop => exact Nat.zero_le 1
    | next es2 => exact watchdogRun_le_one os es2

lemma watchdogRun_under_threshold (t : ℚ) :
    ∀ (obs : List WatchObs),
      (∀ o2 ∈ obs, o2.connected = true ∧ o2.channelPresent = true ∧
        o2.audience = 0 ∧ o2.now - t < emptyChannelDisconnectSeconds ∧
        ¬ idleCond o2) →
      watchdogRun (some t) obs = 0
  | [], _ => rfl
  | o :: os, h => by
    have ho := h o (List.mem_cons_self o os)
    rw [watchdogRun,
      watchdogStep_accum t o ho.1 ho.2.1 ho.2.2.1 ho.2.2.2.1 ho.2.2.2.2]
    exact watchdogRun_under_threshold t os (fun o2 hm => h o2 (List.mem_cons_of_mem o hm))

/-- C6: the idle watchdog clears the empty-since timer whenever the
audience is non-zero; while the audience is zero the timer keeps its
origin, and once at least the 30-second empty-room threshold has passed
since that origin the poll calls `stop()` and the loop exits; a session
whose audience has been zero for strictly less than the threshold is never
stopped by the empty-room condition (polls on which the independent idle
condition does not fire leave the session running); and over any whole run
of the watchdog, `stop()` is called at most once — the loop exits right
after the first trip and never fires again. -/
theorem C6_watchdog (es : Option ℚ) (o : WatchObs) :
    (o.connected = true → o.channelPresent = true → o.audience ≠ 0 →
      ¬ idleCond o → watchdogStep es o = .next none) ∧
    (∀ t, es = some t → o.connected = true → o.channelPresent = true →
      o.audience = 0 → o.now - t < emptyChannelDisconnectSeconds →
      ¬ idleCond o → watchdogStep es o = .next (some t)) ∧
    (es = none → o.connected = true → o.channelPresent = true →
      o.audience = 0 → ¬ idleCond o → watchdogStep es o = .next (some o.now)) ∧
    (∀ t, es = some t → o.connected = true → o.channelPresent = true →
      o.audience = 0 → emptyChannelDisconnectSeconds ≤ o.now - t →
      watchdogStep es o = .exitStop) ∧
    (∀ obs, watchdogRun es obs ≤ 1) ∧
    (∀ t obs, es = some t →
      (∀ o2 ∈ obs, o2.connected = true ∧ o2.channelPresent = true ∧
        o2.audience = 0 ∧ o2.now - t < emptyChannelDisconnectSeconds ∧
        ¬ idleCond o2) →
      watchdogRun es obs = 0) := by
  refine ⟨?_, ?_, ?_, ?_, fun obs => watchdogRun_le_one obs es, ?_⟩
  · intro hc hch ha hi
    unfold watchdogStep
    rw [hc, hch]
    simp only [Bool.not_true, Bool.false_eq_true, if_false]
    have htrip : emptyTrip es o = false := by
      unfold emptyTrip
      rw [decide_eq_false ha]
      simp
    rw [htrip]
    simp only [Bool.false_eq_true, if_false]
    rw [if_neg hi, if_neg ha]
  · intro t hes hc hch ha hlt hi
    rw [hes]
    exact watchdogStep_accum t o hc hch ha hlt hi
  · intro hes hc hch ha hi
    rw [hes]
    unfold watchdogStep
    rw [hc, hch]
    simp only [Bool.not_true, Bool.false_eq_true, if_false]
    have htrip : emptyTrip none o = false := by
      unfold emptyTrip
      simp
    rw [htrip]
    simp only [Bool.false_eq_true, if_false]
    rw [if_neg hi, ha]
    simp
  · intro t hes hc hch ha hge
    rw [hes]
    unfold watchdogStep
    rw [hc, hch]
    simp only [Bool.not_true, Bool.false_eq_true, if_false]
    have htrip : emptyTrip (some t) o = true := by
      unfold emptyTrip
      simp [ha, hge]
    rw [htrip]
    simp
  · intro t obs hes hall
    rw [hes]
    exact watchdogRun_under_threshold t obs hall

/-- C6 witness: concrete polls — a trip at 31s of empty room, no trip at
20s, a reset when the audience returns, and a two-poll run under the
threshold that never stops. -/
theorem C6_watchdog_witness :
    watchdogStep (some 100)
      { connected := true, channelPresent := true, audience := 0, now := 131,
        busy := true, queueEmpty := false, lastActivity := 100 } = .exitStop ∧
    watchdogStep (some 100)
      { connected := true, channelPresent := true, audience := 0, now := 120,
        busy := true, queueEmpty := false, lastActivity := 100 } =
      .next (some 100) ∧
    watchdogStep none
      { connected := true, channelPresent := true, audience := 3, now := 120,
        busy := true, queueEmpty := false, lastActivity := 100 } = .next none ∧
    watchdogRun (some 100)
      [{ connected := true, channelPresent := true, audience := 0, now := 110,
         busy := true, queueEmpty := false, lastActivity := 100 },
       { connected := true, channelPresent := true, audience := 0, now := 120,
         busy := true, queueEmpty := false, lastActivity := 100 }] = 0 := by
  refine ⟨?_, ?_, ?_, ?_⟩
  · exact (C6_watchdog (some 100) _).2.2.2.1 100 rfl rfl rfl rfl
      (by show (30 : ℚ) ≤ 131 - 100; norm_num)
  · exact (C6_watchdog (some 100) _).2.1 100 rfl rfl rfl rfl
      (by show (120 : ℚ) - 100 < 30; norm_num) (fun hi => nomatch hi.1)
  · exact (C6_watchdog none _).1 rfl rfl (by decide) (fun hi => nomatch hi.1)
  · refine (C6_watchdog (some 100)
      { connected := true, channelPresent := true, audience := 0, now := 110,
        busy := true, queueEmpty := false,
        lastActivity := 100 }).2.2.2.2.2 100 _ rfl ?_
    intro o2 hm
    rcases List.mem_cons.mp hm with rfl | hm2
    · exact ⟨rfl, rfl, rfl, by show (110 : ℚ) - 100 < 30; norm_num,
        fun hi => nomatch hi.1⟩
    · rcases List.mem_cons.mp hm2 with rfl | hm3
      · exact ⟨rfl, rfl, rfl, by show (120 : ℚ) - 100 < 30; norm_num,
          fun hi => nomatch hi.1⟩
      · exact absurd hm3 (List.not_mem_nil o2)

end SoundRift
